import Mathlib

/-!
Shallow embedding of `src/risk_app_v2.py` (a single-file stock-risk scorer).

Python floats are modelled as rationals (`ℚ`); Python's `round(x, 2)` is
modelled as exact rational rounding to two decimal places (`round2`); the
optional fields of `stock.info` are `Option ℚ`; Python's `x or d` fallback
(which replaces both `None` and `0` by `d`) is `orFalsy`.

The external market-data client (`yf.Ticker(...).history`, `.info`) is
modelled by a `FetchData` record delivered through `Except PyErr`, so that a
raised fetch failure and a returned-but-empty history are both expressible.
-/

namespace RiskApp

/-- Python truthiness fallback: `x or d` replaces `None` and `0` by `d`. -/
def orFalsy (o : Option ℚ) (d : ℚ) : ℚ :=
  match o with
  | none => d
  | some x => if x = 0 then d else x

/-- Rounding to two decimal places, modelling Python's `round(x, 2)`
(Python rounds the nearest representable float half-to-even; on the exact
rationals used below no tie at the third decimal occurs, so nearest-rounding
conventions agree). -/
def round2 (x : ℚ) : ℚ := (round (x * 100) : ℚ) / 100

/-- Source lines 63-71: the seven-label bucketing of a score
(`None` renders as "N/A"). -/
def interpret_risk (s : Option ℚ) : String :=
  match s with
  | none => "N/A"
  | some s =>
    if s ≤ 20 then "Extremely Low Risk"
    else if s ≤ 33 then "Very Low Risk"
    else if s ≤ 45 then "Low Risk"
    else if s ≤ 55 then "Moderate Risk"
    else if s ≤ 67 then "High Risk"
    else if s ≤ 80 then "Very High Risk"
    else "Extremely High Risk"

/-- Source lines 73-81: the background colour chosen for a score. -/
def risk_color (s : Option ℚ) : String :=
  match s with
  | none => "#ecf0f1"
  | some s =>
    if s ≤ 20 then "rgba(52, 152, 219, 0.25)"
    else if s ≤ 33 then "rgba(93, 173, 226, 0.25)"
    else if s ≤ 45 then "rgba(46, 204, 113, 0.25)"
    else if s ≤ 55 then "rgba(244, 208, 63, 0.25)"
    else if s ≤ 67 then "rgba(230, 126, 34, 0.25)"
    else if s ≤ 80 then "rgba(231, 76, 60, 0.25)"
    else "rgba(0, 0, 0, 0.25)"

/-- The common branch structure of `interpret_risk` and `risk_color`:
bucket 0 is `None`, buckets 1-7 are the seven threshold intervals. -/
def bucketOf (s : Option ℚ) : Fin 8 :=
  match s with
  | none => 0
  | some s =>
    if s ≤ 20 then 1
    else if s ≤ 33 then 2
    else if s ≤ 45 then 3
    else if s ≤ 55 then 4
    else if s ≤ 67 then 5
    else if s ≤ 80 then 6
    else 7

/-- The label each bucket of `bucketOf` receives. -/
def labelTable : ℕ → String
  | 0 => "N/A"
  | 1 => "Extremely Low Risk"
  | 2 => "Very Low Risk"
  | 3 => "Low Risk"
  | 4 => "Moderate Risk"
  | 5 => "High Risk"
  | 6 => "Very High Risk"
  | _ => "Extremely High Risk"

/-- The colour each bucket of `bucketOf` receives. -/
def colorTable : ℕ → String
  | 0 => "#ecf0f1"
  | 1 => "rgba(52, 152, 219, 0.25)"
  | 2 => "rgba(93, 173, 226, 0.25)"
  | 3 => "rgba(46, 204, 113, 0.25)"
  | 4 => "rgba(244, 208, 63, 0.25)"
  | 5 => "rgba(230, 126, 34, 0.25)"
  | 6 => "rgba(231, 76, 60, 0.25)"
  | _ => "rgba(0, 0, 0, 0.25)"

/-- Label of the i-th of the seven risk buckets (0-indexed, ascending risk). -/
def labelOf (i : ℕ) : String := labelTable (i + 1)

/-- Lower threshold of the i-th numeric bucket. -/
def bucketLB : ℕ → ℚ
  | 0 => 0
  | 1 => 20
  | 2 => 33
  | 3 => 45
  | 4 => 55
  | 5 => 67
  | _ => 80

/-- Upper threshold of the i-th numeric bucket. -/
def bucketUB : ℕ → ℚ
  | 0 => 20
  | 1 => 33
  | 2 => 45
  | 3 => 55
  | 4 => 67
  | 5 => 80
  | _ => 100

/-- Membership of a score in the i-th numeric bucket: bucket 0 is `[0, 20]`,
bucket i (i > 0) is `(bucketLB i, bucketUB i]`. -/
def inBucket (i : ℕ) (s : ℚ) : Prop :=
  (if i = 0 then 0 ≤ s else bucketLB i < s) ∧ s ≤ bucketUB i

instance (i : ℕ) (s : ℚ) : Decidable (inBucket i s) := by
  unfold inBucket; exact inferInstance

/-! ## The data-fetch model and `calculate_components` (source lines 90-133) -/

/-- The optional fundamental fields read from `stock.info`
(source lines 102-108). -/
structure TickerInfo where
  forwardPE : Option ℚ
  priceToSales : Option ℚ
  dividendYield : Option ℚ
  debtToEquity : Option ℚ
  operatingMargins : Option ℚ
  esgTotal : Option ℚ
  deriving DecidableEq

/-- One successful round of data fetching for a ticker: the `Close` and
`Volume` columns of its history, the benchmark (`SPY`) closes, and the
fundamentals snapshot. -/
structure FetchData where
  histClose : List ℚ
  histVolume : List ℚ
  spyClose : List ℚ
  info : TickerInfo
  deriving DecidableEq

/-- The exceptions that can arise inside `calculate_components`:
a failure signalled by the data client, or the `NameError` raised when the
scores dict (source lines 117-128) reads the names `vol`, `dd` and `beta`,
which are bound nowhere in the program (the helpers `volatility`,
`drawdown` and `beta_calc` of lines 83-88 are never called). -/
inductive PyErr where
  | fetchErr
  | nameErr
  deriving DecidableEq

/-- The body of the `try:` block of `calculate_components`.  An empty ticker
history or empty benchmark history returns the no-result pair normally (line 95);
otherwise evaluation of the scores dict raises `NameError` at the unbound
name `vol` (line 123), before any score is produced. -/
def calcBody (d : FetchData) : Except PyErr (Option ℚ × List (String × ℚ)) :=
  if d.histClose.isEmpty ∨ d.spyClose.isEmpty then .ok (none, [])
  else .error .nameErr

/-- Source lines 90-133: `calculate_components`, as a function of the outcome
of the external data fetch.  The bare `except:` of line 132 maps every
exception — from the fetch itself or from the body — to the no-result pair
of `None` and an empty dict. -/
def calculate_components (fetch : Except PyErr FetchData) :
    Option ℚ × List (String × ℚ) :=
  match fetch.bind calcBody with
  | .ok v => v
  | .error _ => (none, [])

/-! ## The scoring arithmetic (source lines 102-131)

The scores dict is a function of its free variables; `vol`, `dd` and `beta`
are unbound in the source, so here they are inputs of the expression. -/

/-- The raw inputs the scores dict of lines 117-128 consumes: the
fundamentals, the (unbound) names `vol`, `dd`, `beta`, and `volume`, the
mean of the `Volume` column (line 98). -/
structure ScoreInputs where
  info : TickerInfo
  vol : ℚ
  dd : ℚ
  beta : Option ℚ
  avgVolume : ℚ
  deriving DecidableEq

/-- Source line 116: `def score(x, scale): return min(x / scale, 1) * 100`. -/
def score (x scale : ℚ) : ℚ := min (x / scale) 1 * 100

/-- Line 102: `pe = stock.info.get("forwardPE") or 60`. -/
def peOf (i : TickerInfo) : ℚ := orFalsy i.forwardPE 60

/-- Line 103: `ps = stock.info.get("priceToSalesTrailing12Months") or 15`. -/
def psOf (i : TickerInfo) : ℚ := orFalsy i.priceToSales 15

/-- Line 105: `dte = stock.info.get("debtToEquity") or 300`. -/
def dteOf (i : TickerInfo) : ℚ := orFalsy i.debtToEquity 300

/-- Line 106: `margin = stock.info.get("operatingMargins") or 0.2`. -/
def marginOf (i : TickerInfo) : ℚ := orFalsy i.operatingMargins (1 / 5)

/-- Line 108: `esg = ....get("totalEsg", 50)` — a dict default, not an
`or` fallback, so a present value of 0 is kept. -/
def esgOf (i : TickerInfo) : ℚ := i.esgTotal.getD 50

/-- Line 107: `avg_volume = volume or 1000000`. -/
def avgVolumeOf (r : ScoreInputs) : ℚ :=
  if r.avgVolume = 0 then 1000000 else r.avgVolume

/-- The "PE" sub-score before weighting: `score(pe, 60)`. -/
def peScore (r : ScoreInputs) : ℚ := score (peOf r.info) 60

/-- The "PS" sub-score before weighting: `score(ps, 15)`. -/
def psScore (r : ScoreInputs) : ℚ := score (psOf r.info) 15

/-- The "D/E" sub-score before weighting: `score(dte, 300)`. -/
def dteScore (r : ScoreInputs) : ℚ := score (dteOf r.info) 300

/-- The "Margin" sub-score before weighting: `score((1 - margin), 1)`. -/
def marginScore (r : ScoreInputs) : ℚ := score (1 - marginOf r.info) 1

/-- The "Dividend" sub-score before weighting: `(0 if dy else 100)` —
Python truthiness, so a yield of 0 also scores 100. -/
def dividendScore (r : ScoreInputs) : ℚ :=
  match r.info.dividendYield with
  | none => 100
  | some y => if y = 0 then 100 else 0

/-- The "Volatility" sub-score before weighting: `score(vol, 0.05)`. -/
def volScore (r : ScoreInputs) : ℚ := score r.vol (1 / 20)

/-- The "Drawdown" sub-score before weighting: `score(abs(dd), 0.3)`. -/
def ddScore (r : ScoreInputs) : ℚ := score |r.dd| (3 / 10)

/-- The "Beta" sub-score before weighting: `score(beta or 1, 2)`. -/
def betaScore (r : ScoreInputs) : ℚ := score (orFalsy r.beta 1) 2

/-- The "Liquidity" sub-score before weighting:
`score(1000000 / avg_volume, 1)`. -/
def liqScore (r : ScoreInputs) : ℚ := score (1000000 / avgVolumeOf r) 1

/-- The "ESG" sub-score before weighting: `score(esg, 100)`. -/
def esgScore (r : ScoreInputs) : ℚ := score (esgOf r.info) 100

/-- The ten normalized sub-scores before weighting, in source order. -/
def subScoreList (r : ScoreInputs) : List ℚ :=
  [peScore r, psScore r, dteScore r, marginScore r, dividendScore r,
   volScore r, ddScore r, betaScore r, liqScore r, esgScore r]

/-- The weights of lines 110-114, in source order. -/
def weightList : List ℚ :=
  [14/100, 10/100, 10/100, 10/100, 5/100, 16/100, 12/100, 9/100, 9/100, 5/100]

/-- The weighted contributions of the scores dict (lines 117-128). -/
def weightedScores (r : ScoreInputs) : List ℚ :=
  List.zipWith (fun s w => s * w) (subScoreList r) weightList

/-- Line 130: `total_risk = round(sum(scores.values()), 2)`. -/
def total_risk (r : ScoreInputs) : ℚ := round2 (weightedScores r).sum

/-! ## Portfolio aggregation (source lines 134-146)

The loop of lines 139-142 calls `calculate_components` for each ticker;
the aggregation is stated over an arbitrary per-ticker score function
`scoreOf`, of which `fun t => (calculate_components (fetchOf t)).1` is the
program's instance. -/

/-- Lines 139-142: the list `risks` of `(ticker, score, amount)` triples for
the tickers whose score is not `None`. -/
def risks (scoreOf : String → Option ℚ) (p : List (String × ℚ)) :
    List (String × ℚ × ℚ) :=
  p.filterMap (fun e => (scoreOf e.1).map (fun r => (e.1, r, e.2)))

/-- Line 137: `total_amount = sum([amt for _, amt in portfolio])` — the sum
over ALL portfolio entries. -/
def totalAmount (p : List (String × ℚ)) : ℚ := (p.map Prod.snd).sum

/-- Lines 144-145: the aggregate is produced only when `risks` is non-empty,
as `round(sum(r * a) / total_amount, 2)`. -/
def portfolio_risk (scoreOf : String → Option ℚ) (p : List (String × ℚ)) :
    Option ℚ :=
  if risks scoreOf p = [] then none
  else some (round2 (((risks scoreOf p).map (fun x => x.2.1 * x.2.2)).sum /
    totalAmount p))

/-! ## The portfolio input filter (source lines 46-58) -/

/-- Python's `s.replace(".", "", 1)`: remove the first `.` if any. -/
def removeFirstDot : List Char → List Char
  | [] => []
  | c :: cs => if c = '.' then cs else c :: removeFirstDot cs

/-- Python's `str.isdigit` (restricted to ASCII): non-empty and all digits. -/
def isDigitStr (cs : List Char) : Bool := !cs.isEmpty && cs.all Char.isDigit

/-- Numeric value of a digit string. -/
def digitsToNat (cs : List Char) : ℕ :=
  cs.foldl (fun n c => 10 * n + (c.toNat - 48)) 0

/-- Number of characters after the first dot. -/
def fracLen (cs : List Char) : ℕ :=
  match cs.dropWhile (fun c => c ≠ '.') with
  | [] => 0
  | _ :: rest => rest.length

/-- Python's `float(s)` on the strings admitted by the filter of line 57:
digits with at most one dot. -/
def parseDec (cs : List Char) : ℚ :=
  (digitsToNat (cs.filter (fun c => c ≠ '.')) : ℚ) / 10 ^ fracLen cs

/-- Lines 57-58: an input row joins the portfolio iff the name is non-empty
and `amount.replace(".", "", 1).isdigit()`; the ticker is upper-cased and
the amount parsed as a float. -/
def parsedEntry (name amount : List Char) : Option (List Char × ℚ) :=
  if name ≠ [] ∧ isDigitStr (removeFirstDot amount) = true then
    some (name.map Char.toUpper, parseDec amount)
  else none

/-- The portfolio built from the raw input rows (lines 46-58). -/
def buildPortfolio (entries : List (List Char × List Char)) :
    List (List Char × ℚ) :=
  entries.filterMap (fun e => parsedEntry e.1 e.2)

/-! ## Concrete instances used in counterexamples and witnesses -/

/-- A data client whose every fetch raises a failure. -/
def fetchFailAll : String → Except PyErr FetchData := fun _ => .error .fetchErr

/-- A successful fetch with non-empty ticker and benchmark history and all
fundamentals present and well-formed. -/
def goodFetch : FetchData :=
  ⟨[100, 101], [1000, 1200], [400, 401],
    ⟨some 30, some 5, some (1/50), some 80, some (1/4), some 20⟩⟩

/-- A per-ticker score function under which "A" scores 50 and every other
ticker fails to score. -/
def scoreOnlyA : String → Option ℚ := fun t => if t = "A" then some 50 else none

/-- A per-ticker score function under which "A" scores 20 and every other
ticker scores 80. -/
def scoreAB : String → Option ℚ := fun t => if t = "A" then some 20 else some 80

/-- A per-ticker score function under which "A" scores 20 and every other
ticker scores 70. -/
def scoreAB70 : String → Option ℚ := fun t => if t = "A" then some 20 else some 70

/-- Benign scoring inputs: no fundamentals reported, small volatility and
drawdown, no beta, ample volume. -/
def benignInputs : ScoreInputs :=
  ⟨⟨none, none, none, none, none, none⟩, 1/100, -(1/10), none, 2000000⟩

/-- Scoring inputs whose reported forward P/E is negative (a loss-making
company), everything else as in `benignInputs`. -/
def negPEInputs : ScoreInputs :=
  ⟨⟨some (-60), none, none, none, none, none⟩, 1/100, -(1/10), none, 2000000⟩

/-- Scoring inputs with a large negative forward P/E and every other raw
value sitting exactly at its reference ceiling. -/
def deepNegInputs : ScoreInputs :=
  ⟨⟨some (-60000), some 15, none, some 300, some (1/5), some 50⟩,
    1/20, -(3/10), some 2, 1000000⟩

/-! ## Theorems -/

theorem interpret_risk_eq_table (s : Option ℚ) :
    interpret_risk s = labelTable (bucketOf s).val := by
  rcases s with _ | q
  · rfl
  · simp only [interpret_risk, bucketOf]
    split_ifs <;> rfl

theorem risk_color_eq_table (s : Option ℚ) :
    risk_color s = colorTable (bucketOf s).val := by
  rcases s with _ | q
  · rfl
  · simp only [risk_color, bucketOf]
    split_ifs <;> rfl

theorem labelTable_inj :
    ∀ a b : Fin 8, labelTable a.val = labelTable b.val → a = b := by decide

theorem colorTable_inj :
    ∀ a b : Fin 8, colorTable a.val = colorTable b.val → a = b := by decide

/-- C9: `interpret_risk` and `risk_color` partition scores (including `None`)
identically: two scores receive the same risk label iff they receive the
same background colour, both functions branching on the thresholds
20, 33, 45, 55, 67, 80. -/
theorem interpret_color_same_partition (s₁ s₂ : Option ℚ) :
    interpret_risk s₁ = interpret_risk s₂ ↔ risk_color s₁ = risk_color s₂ := by
  rw [interpret_risk_eq_table, interpret_risk_eq_table,
    risk_color_eq_table, risk_color_eq_table]
  constructor
  · intro h
    rw [labelTable_inj _ _ h]
  · intro h
    rw [colorTable_inj _ _ h]

theorem inBucket_disjoint (s : ℚ) (i j : Fin 7) :
    inBucket i.val s → inBucket j.val s → i = j := by
  intro hi hj
  fin_cases i <;> fin_cases j <;>
    first
      | rfl
      | (exfalso
         simp only [inBucket, bucketLB, bucketUB, if_true, if_false] at hi hj
         norm_num at hi hj
         linarith [hi.1, hi.2, hj.1, hj.2])

theorem inBucket_label (s : ℚ) (i : Fin 7) (hi : inBucket i.val s) :
    interpret_risk (some s) = labelOf i.val := by
  fin_cases i <;>
    simp only [inBucket, bucketLB, bucketUB, if_true, if_false] at hi <;>
    norm_num at hi <;>
    simp only [interpret_risk, labelOf, labelTable] <;>
    [rw [if_pos hi.2];
     rw [if_neg (not_le.mpr hi.1), if_pos hi.2];
     rw [if_neg (not_le.mpr (by linarith [hi.1])),
       if_neg (not_le.mpr hi.1), if_pos hi.2];
     rw [if_neg (not_le.mpr (by linarith [hi.1])),
       if_neg (not_le.mpr (by linarith [hi.1])),
       if_neg (not_le.mpr hi.1), if_pos hi.2];
     rw [if_neg (not_le.mpr (by linarith [hi.1])),
       if_neg (not_le.mpr (by linarith [hi.1])),
       if_neg (not_le.mpr (by linarith [hi.1])),
       if_neg (not_le.mpr hi.1), if_pos hi.2];
     rw [if_neg (not_le.mpr (by linarith [hi.1])),
       if_neg (not_le.mpr (by linarith [hi.1])),
       if_neg (not_le.mpr (by linarith [hi.1])),
       if_neg (not_le.mpr (by linarith [hi.1])),
       if_neg (not_le.mpr hi.1), if_pos hi.2];
     rw [if_neg (not_le.mpr (by linarith [hi.1])),
       if_neg (not_le.mpr (by linarith [hi.1])),
       if_neg (not_le.mpr (by linarith [hi.1])),
       if_neg (not_le.mpr (by linarith [hi.1])),
       if_neg (not_le.mpr (by linarith [hi.1])),
       if_neg (not_le.mpr hi.1)]]

theorem inBucket_exists (s : ℚ) (h0 : 0 ≤ s) (h1 : s ≤ 100) :
    ∃ i : Fin 7, inBucket i.val s := by
  rcases le_or_lt s 20 with h | h
  · exact ⟨0, by simp only [inBucket, bucketLB, bucketUB]; norm_num; exact ⟨h0, h⟩⟩
  rcases le_or_lt s 33 with h2 | h2
  · exact ⟨1, by simp only [inBucket, bucketLB, bucketUB]; norm_num; exact ⟨h, h2⟩⟩
  rcases le_or_lt s 45 with h3 | h3
  · exact ⟨2, by simp only [inBucket, bucketLB, bucketUB]; norm_num; exact ⟨h2, h3⟩⟩
  rcases le_or_lt s 55 with h4 | h4
  · exact ⟨3, by simp only [inBucket, bucketLB, bucketUB]; norm_num; exact ⟨h3, h4⟩⟩
  rcases le_or_lt s 67 with h5 | h5
  · exact ⟨4, by simp only [inBucket, bucketLB, bucketUB]; norm_num; exact ⟨h4, h5⟩⟩
  rcases le_or_lt s 80 with h6 | h6
  · exact ⟨5, by simp only [inBucket, bucketLB, bucketUB]; norm_num; exact ⟨h5, h6⟩⟩
  · exact ⟨6, by simp only [inBucket, bucketLB, bucketUB]; norm_num; exact ⟨h6, h1⟩⟩

/-- C5: bucketing is contiguous and exhaustive — every numeric score in
`[0, 100]` lies in exactly one of the seven ordered threshold buckets
(bounds 0, 20, 33, 45, 55, 67, 80, 100), and `interpret_risk` assigns it
exactly the label of that bucket, from "Extremely Low Risk" up to
"Extremely High Risk". -/
theorem interpret_risk_buckets (s : ℚ) (h0 : 0 ≤ s) (h1 : s ≤ 100) :
    ∃! i : Fin 7, inBucket i.val s ∧ interpret_risk (some s) = labelOf i.val := by
  obtain ⟨i, hi⟩ := inBucket_exists s h0 h1
  exact ⟨i, ⟨hi, inBucket_label s i hi⟩,
    fun j hj => inBucket_disjoint s j i hj.1 hi⟩

/-- C1 (code-bug evidence): even when the fetch succeeds, the histories are
non-empty and every fundamental field is present and well-formed — indeed for
every fetch outcome whatsoever — `calculate_components` returns the no-result
pair: the scores dict reads the unbound names `vol`, `dd`, `beta`, raising
`NameError`, which the bare `except:` silently converts.  In particular at
`goodFetch` no numeric composite score is produced. -/
theorem calculate_components_always_none (fetch : Except PyErr FetchData) :
    calculate_components fetch = (none, []) := by
  rcases fetch with e | d
  · rfl
  · show (match calcBody d with
      | Except.ok v => v
      | Except.error _ => (none, [])) = (none, [])
    unfold calcBody
    split_ifs <;> rfl

/-- C10: any exception raised inside `calculate_components` — a failure of
the data client or an error in the scoring body itself — is mapped by the
bare `except:` to the pair of `None` and an empty breakdown, so the function
is total at its interface. -/
theorem calculate_components_catches (fetch : Except PyErr FetchData) (e : PyErr)
    (h : fetch = .error e ∨ ∃ d, fetch = .ok d ∧ calcBody d = .error e) :
    calculate_components fetch = (none, []) := by
  rcases h with rfl | ⟨d, rfl, hd⟩
  · rfl
  · show (match calcBody d with
      | Except.ok v => v
      | Except.error _ => (none, [])) = (none, [])
    rw [hd]

/-- Witness for C10 at a concrete raised fetch failure. -/
theorem calculate_components_catches_witness :
    calculate_components (Except.error PyErr.fetchErr) = (none, []) :=
  calculate_components_catches (Except.error PyErr.fetchErr) PyErr.fetchErr
    (Or.inl rfl)

/-- C8: a ticker whose fetch raises a failure, or returns an empty price
history, gets score `None`, and is simply skipped in the `risks` list: the
entries produced for all other tickers of the portfolio are exactly the ones
they would produce on their own, before and after it. -/
theorem failed_ticker_skipped
    (fetchOf : String → Except PyErr FetchData) (t : String) (a : ℚ)
    (p₁ p₂ : List (String × ℚ))
    (h : (∃ e, fetchOf t = .error e) ∨
         (∃ d, fetchOf t = .ok d ∧ d.histClose = [])) :
    (calculate_components (fetchOf t)).1 = none ∧
    risks (fun s => (calculate_components (fetchOf s)).1) (p₁ ++ (t, a) :: p₂) =
      risks (fun s => (calculate_components (fetchOf s)).1) p₁ ++
        risks (fun s => (calculate_components (fetchOf s)).1) p₂ := by
  have hnone : (calculate_components (fetchOf t)).1 = none := by
    rcases h with ⟨e, he⟩ | ⟨d, hd, hemp⟩
    · rw [he]
      rfl
    · have hb : calcBody d = .ok (none, []) := by
        unfold calcBody
        rw [hemp]
        simp
      rw [hd]
      show (match calcBody d with
        | Except.ok v => v
        | Except.error _ => ((none : Option ℚ), ([] : List (String × ℚ)))).1 =
          none
      rw [hb]
  refine ⟨hnone, ?_⟩
  simp only [risks, List.filterMap_append, List.filterMap_cons, hnone,
    Option.map_none']

/-- Witness for C8: with a data client that always fails, the middle ticker
"AAA" is skipped and the neighbouring tickers are unaffected. -/
theorem failed_ticker_skipped_witness :
    (calculate_components (fetchFailAll "AAA")).1 = none ∧
    risks (fun s => (calculate_components (fetchFailAll s)).1)
        ([("MSFT", 50)] ++ ("AAA", 1) :: [("GOOG", 2)]) =
      risks (fun s => (calculate_components (fetchFailAll s)).1) [("MSFT", 50)] ++
        risks (fun s => (calculate_components (fetchFailAll s)).1) [("GOOG", 2)] :=
  failed_ticker_skipped fetchFailAll "AAA" 1 [("MSFT", 50)] [("GOOG", 2)]
    (Or.inl ⟨PyErr.fetchErr, rfl⟩)

/-- Witness for C5 at the concrete score 50: it lies in bucket 3
("Moderate Risk") and receives that bucket's label. -/
theorem interpret_risk_buckets_witness :
    inBucket (3 : Fin 7).val 50 ∧
      interpret_risk (some 50) = labelOf (3 : Fin 7).val := by
  obtain ⟨i, hi, huniq⟩ := interpret_risk_buckets 50 (by norm_num) (by norm_num)
  have h3 : (3 : Fin 7) = i := huniq 3 (by exact ⟨by decide, by decide⟩)
  rw [← h3] at hi
  exact hi

theorem score_le_100 (x sc : ℚ) : score x sc ≤ 100 := by
  unfold score
  have h := min_le_right (x / sc) 1
  have h2 := mul_le_mul_of_nonneg_right h (by norm_num : (0:ℚ) ≤ 100)
  linarith

theorem score_nonneg (x sc : ℚ) (hx : 0 ≤ x) (hsc : 0 ≤ sc) :
    0 ≤ score x sc := by
  unfold score
  have h1 : 0 ≤ x / sc := div_nonneg hx hsc
  have h2 : 0 ≤ min (x / sc) 1 := le_min h1 (by norm_num)
  linarith [mul_le_mul_of_nonneg_right h2 (by norm_num : (0:ℚ) ≤ 100)]

theorem dividendScore_cases (r : ScoreInputs) :
    dividendScore r = 0 ∨ dividendScore r = 100 := by
  unfold dividendScore
  rcases r.info.dividendYield with _ | y
  · exact Or.inr rfl
  · dsimp only
    split_ifs
    · exact Or.inr rfl
    · exact Or.inl rfl

theorem avgVolumeOf_nonneg (r : ScoreInputs) (h : 0 ≤ r.avgVolume) :
    0 ≤ avgVolumeOf r := by
  unfold avgVolumeOf
  split_ifs
  · norm_num
  · exact h

/-- C3 (amended): every one of the ten normalized sub-scores produced before
weighting is at most 100, and all ten lie in `[0, 100]` whenever the raw
values feeding them (after the fixed fallback substitutions) are
non-negative, with operating margin at most 1.  (As stated over all inputs
the claim fails: a negative raw value, e.g. a negative forward P/E, yields a
negative sub-score, since `score` has no lower clamp.) -/
theorem subScores_bounded (r : ScoreInputs) :
    (∀ s ∈ subScoreList r, s ≤ 100) ∧
    (0 ≤ peOf r.info → 0 ≤ psOf r.info → 0 ≤ dteOf r.info →
     marginOf r.info ≤ 1 → 0 ≤ r.vol → 0 ≤ orFalsy r.beta 1 →
     0 ≤ r.avgVolume → 0 ≤ esgOf r.info →
     ∀ s ∈ subScoreList r, 0 ≤ s) := by
  constructor
  · intro s hs
    simp only [subScoreList, List.mem_cons, List.not_mem_nil, or_false] at hs
    rcases hs with rfl|rfl|rfl|rfl|rfl|rfl|rfl|rfl|rfl|rfl
    · exact score_le_100 _ _
    · exact score_le_100 _ _
    · exact score_le_100 _ _
    · exact score_le_100 _ _
    · rcases dividendScore_cases r with h | h <;> rw [h] <;> norm_num
    · exact score_le_100 _ _
    · exact score_le_100 _ _
    · exact score_le_100 _ _
    · exact score_le_100 _ _
    · exact score_le_100 _ _
  · intro hpe hps hdte hm hv hb hav hesg s hs
    simp only [subScoreList, List.mem_cons, List.not_mem_nil, or_false] at hs
    rcases hs with rfl|rfl|rfl|rfl|rfl|rfl|rfl|rfl|rfl|rfl
    · exact score_nonneg _ _ hpe (by norm_num)
    · exact score_nonneg _ _ hps (by norm_num)
    · exact score_nonneg _ _ hdte (by norm_num)
    · exact score_nonneg _ _ (by linarith) (by norm_num)
    · rcases dividendScore_cases r with h | h <;> rw [h] <;> norm_num
    · exact score_nonneg _ _ hv (by norm_num)
    · exact score_nonneg _ _ (abs_nonneg _) (by norm_num)
    · exact score_nonneg _ _ hb (by norm_num)
    · exact score_nonneg _ _
        (div_nonneg (by norm_num) (avgVolumeOf_nonneg r hav)) (by norm_num)
    · exact score_nonneg _ _ hesg (by norm_num)

/-- Witness for C3 at `benignInputs`: the P/E sub-score lies in `[0, 100]`. -/
theorem subScores_bounded_witness :
    0 ≤ peScore benignInputs ∧ peScore benignInputs ≤ 100 := by
  have hmem : peScore benignInputs ∈ subScoreList benignInputs := by
    simp [subScoreList]
  exact ⟨(subScores_bounded benignInputs).2
      (by norm_num [benignInputs, peOf, orFalsy])
      (by norm_num [benignInputs, psOf, orFalsy])
      (by norm_num [benignInputs, dteOf, orFalsy])
      (by norm_num [benignInputs, marginOf, orFalsy])
      (by norm_num [benignInputs])
      (by norm_num [benignInputs, orFalsy])
      (by norm_num [benignInputs])
      (by norm_num [benignInputs, esgOf]) _ hmem,
    (subScores_bounded benignInputs).1 _ hmem⟩

/-- Counterexample for C3 as stated: with a reported forward P/E of -60 the
P/E sub-score is -100, one of the ten sub-scores and outside `[0, 100]`. -/
theorem subScore_negative_cex :
    peScore negPEInputs = -100 ∧ peScore negPEInputs ∈ subScoreList negPEInputs ∧
      ¬(0 ≤ peScore negPEInputs) := by
  have h : peScore negPEInputs = -100 := by
    norm_num [peScore, score, peOf, orFalsy, negPEInputs, min_def]
  refine ⟨h, by simp [subScoreList], by rw [h]; norm_num⟩

theorem round_mono_q (x y : ℚ) (h : x ≤ y) : round x ≤ round y := by
  rw [round_eq, round_eq]
  exact Int.floor_le_floor (by linarith)

/-- C4 (amended): the composite `total_risk` is never more than 100 — the
weights sum to 1 and each sub-score is at most 100 — but the code applies no
clamping at all, and the composite can be negative when a raw input is
negative. -/
theorem total_risk_le_100 (r : ScoreInputs) : total_risk r ≤ 100 := by
  have h1 := score_le_100 (peOf r.info) 60
  have h2 := score_le_100 (psOf r.info) 15
  have h3 := score_le_100 (dteOf r.info) 300
  have h4 := score_le_100 (1 - marginOf r.info) 1
  have h5 : dividendScore r ≤ 100 := by
    rcases dividendScore_cases r with h | h <;> rw [h] <;> norm_num
  have h6 := score_le_100 r.vol (1/20)
  have h7 := score_le_100 |r.dd| (3/10)
  have h8 := score_le_100 (orFalsy r.beta 1) 2
  have h9 := score_le_100 (1000000 / avgVolumeOf r) 1
  have h10 := score_le_100 (esgOf r.info) 100
  have hsum : (weightedScores r).sum ≤ 100 := by
    simp only [weightedScores, subScoreList, weightList, List.zipWith,
      List.sum_cons, List.sum_nil, peScore, psScore, dteScore, marginScore,
      volScore, ddScore, betaScore, liqScore, esgScore]
    linarith
  unfold total_risk round2
  have hr : round ((weightedScores r).sum * 100) ≤ round ((10000 : ℚ)) :=
    round_mono_q _ _ (by linarith)
  have h10000 : round ((10000 : ℚ)) = 10000 := by
    simp
  rw [h10000] at hr
  have : ((round ((weightedScores r).sum * 100) : ℤ) : ℚ) ≤ 10000 := by
    exact_mod_cast hr
  linarith

/-- Counterexample for C4 as stated: at `deepNegInputs` the composite is
-13918.5 — far below 0, with no clamping applied. -/
theorem total_risk_negative_cex :
    total_risk deepNegInputs = -27837/2 ∧ total_risk deepNegInputs < 0 := by
  have h : total_risk deepNegInputs = -27837/2 := by
    norm_num [total_risk, round2, weightedScores, subScoreList, weightList,
      List.zipWith_cons_cons, peScore, psScore, dteScore, marginScore,
      dividendScore, volScore, ddScore, betaScore, liqScore, esgScore, score,
      peOf, psOf, dteOf, marginOf, esgOf, avgVolumeOf, orFalsy, deepNegInputs,
      min_def, round_eq, abs_of_nonpos, Int.floor_eq_iff]
  exact ⟨h, by rw [h]; norm_num⟩

theorem risks_num_eq (scoreOf : String → Option ℚ) (p : List (String × ℚ)) :
    ((risks scoreOf p).map (fun x => x.2.1 * x.2.2)).sum =
      (p.filterMap (fun e => (scoreOf e.1).map (fun s => s * e.2))).sum := by
  induction p with
  | nil => rfl
  | cons e rest ih =>
    simp only [risks, List.filterMap_cons] at ih ⊢
    cases h : scoreOf e.1
    · simp only [h, Option.map_none']
      exact ih
    · simp only [h, Option.map_some', List.map_cons, List.sum_cons, ih]

/-- C2 (amended): a ticker whose score could not be computed is excluded from
the numerator of the weighted average, but its dollar amount stays in the
denominator: `total_amount` is summed over ALL portfolio entries (source
line 137), not only over the successfully scored ones. -/
theorem portfolio_denominator_total (scoreOf : String → Option ℚ)
    (p : List (String × ℚ)) (h : risks scoreOf p ≠ []) :
    portfolio_risk scoreOf p =
      some (round2
        ((p.filterMap (fun e => (scoreOf e.1).map (fun s => s * e.2))).sum /
          (p.map Prod.snd).sum)) := by
  unfold portfolio_risk
  rw [if_neg h, risks_num_eq]
  rfl

/-- Witness for C2: "A" scores 50 with amount 100, "B" fails with amount 300;
the produced aggregate is 5000 / 400 = 12.5. -/
theorem portfolio_denominator_total_witness :
    portfolio_risk scoreOnlyA [("A", 100), ("B", 300)] = some (25/2) := by
  have h := portfolio_denominator_total scoreOnlyA [("A", 100), ("B", 300)]
    (by simp [risks, scoreOnlyA])
  rw [h]
  simp only [List.filterMap_cons, List.filterMap_nil, List.map_cons,
    List.map_nil, List.sum_cons, List.sum_nil,
    show scoreOnlyA "A" = some 50 from rfl,
    show scoreOnlyA "B" = none from rfl, Option.map_some', Option.map_none']
  norm_num [round2, round_eq]

/-- Counterexample for C2 as stated: with "A" scored 50 (amount 100) and "B"
unscored (amount 300), the code produces 12.5, while restricting the
denominator to the amounts of successfully scored tickers would give 50. -/
theorem portfolio_excluded_denominator_cex :
    portfolio_risk scoreOnlyA [("A", 100), ("B", 300)] = some (25/2) ∧
      round2 ((((risks scoreOnlyA [("A", 100), ("B", 300)]).map
          (fun x => x.2.1 * x.2.2)).sum) /
        (((risks scoreOnlyA [("A", 100), ("B", 300)]).map
          (fun x => x.2.2)).sum)) = 50 ∧
      (25/2 : ℚ) ≠ 50 := by
  refine ⟨?_, ?_, by norm_num⟩
  · unfold portfolio_risk
    rw [if_neg (by simp [risks, scoreOnlyA])]
    simp [risks, scoreOnlyA, totalAmount]
    norm_num [round2, round_eq]
  · simp [risks, scoreOnlyA]
    norm_num [round2, round_eq]

theorem risks_all_some (scoreOf : String → Option ℚ) (p : List (String × ℚ))
    (hall : ∀ e ∈ p, (scoreOf e.1).isSome) :
    risks scoreOf p = p.map (fun e => (e.1, (scoreOf e.1).getD 0, e.2)) := by
  induction p with
  | nil => rfl
  | cons e rest ih =>
    have he := hall e (List.mem_cons_self e rest)
    cases h : scoreOf e.1
    · rw [h] at he
      simp at he
    · simp only [risks, List.filterMap_cons, h, Option.map_some',
        List.map_cons, Option.getD_some]
      rw [← risks]
      rw [ih (fun x hx => hall x (List.mem_cons_of_mem e hx))]

theorem sum_map_mul_right (l : List (String × ℚ)) (f : String × ℚ → ℚ)
    (c : ℚ) : (l.map (fun e => f e * c)).sum = (l.map f).sum * c := by
  induction l with
  | nil => simp
  | cons e rest ih => simp [ih, add_mul]

theorem sum_map_const_q (l : List (String × ℚ)) (c : ℚ) :
    (l.map (fun _ => c)).sum = l.length * c := by
  induction l with
  | nil => simp
  | cons e rest ih =>
    simp only [List.map_cons, List.sum_cons, ih, List.length_cons]
    push_cast
    ring

/-- C6 (amended): for a portfolio whose tickers all score, with positive
amounts, the aggregate equals the amount-weighted average of the scores
rounded to two decimals, and with all amounts equal it equals the simple
mean of the scores rounded to two decimals.  (The example 20 and 80 with
amounts 100 and 300 gives exactly 65, "High Risk"; but exact equality with
the unrounded quotient fails in general.) -/
theorem portfolio_weighted_average (scoreOf : String → Option ℚ)
    (p : List (String × ℚ)) (hp : p ≠ [])
    (hall : ∀ e ∈ p, (scoreOf e.1).isSome) (hpos : ∀ e ∈ p, 0 < e.2) :
    portfolio_risk scoreOf p =
      some (round2 ((p.map (fun e => (scoreOf e.1).getD 0 * e.2)).sum /
        (p.map Prod.snd).sum)) ∧
    (∀ c : ℚ, (∀ e ∈ p, e.2 = c) →
      portfolio_risk scoreOf p =
        some (round2 ((p.map (fun e => (scoreOf e.1).getD 0)).sum /
          p.length))) := by
  have hr := risks_all_some scoreOf p hall
  have hne : risks scoreOf p ≠ [] := by
    rw [hr]
    simpa using hp
  have hmain : portfolio_risk scoreOf p =
      some (round2 ((p.map (fun e => (scoreOf e.1).getD 0 * e.2)).sum /
        (p.map Prod.snd).sum)) := by
    unfold portfolio_risk
    rw [if_neg hne, hr]
    simp only [List.map_map]
    rfl
  refine ⟨hmain, fun c hc => ?_⟩
  obtain ⟨e₀, he₀⟩ := List.exists_mem_of_ne_nil p hp
  have hc0 : c ≠ 0 := by
    have := hpos e₀ he₀
    rw [hc e₀ he₀] at this
    exact ne_of_gt this
  rw [hmain]
  congr 2
  have hnum : p.map (fun e => (scoreOf e.1).getD 0 * e.2) =
      p.map (fun e => (scoreOf e.1).getD 0 * c) := by
    exact List.map_congr_left (fun e he => by rw [hc e he])
  have hden : p.map Prod.snd = p.map (fun _ => c) := by
    exact List.map_congr_left (fun e he => hc e he)
  rw [hnum, hden, sum_map_mul_right p (fun e => (scoreOf e.1).getD 0) c,
    sum_map_const_q]
  rw [mul_comm (p.length : ℚ) c, mul_comm]
  exact mul_div_mul_left _ _ hc0

/-- Witness for C6: scores 20 and 80 with amounts 100 and 300 aggregate to
exactly 65, labelled "High Risk". -/
theorem portfolio_weighted_average_witness :
    portfolio_risk scoreAB [("A", 100), ("B", 300)] = some 65 ∧
      interpret_risk (some 65) = "High Risk" := by
  have h := (portfolio_weighted_average scoreAB [("A", 100), ("B", 300)]
    (by simp) (by simp [scoreAB]) (by norm_num)).1
  refine ⟨?_, by decide⟩
  rw [h]
  simp only [List.map_cons, List.map_nil, List.sum_cons, List.sum_nil,
    show scoreAB "A" = some 20 from rfl, show scoreAB "B" = some 80 from rfl,
    Option.getD_some]
  norm_num [round2, round_eq]

/-- Counterexample for C6 as stated: scores 20 and 70 with amounts 1 and 2
give the weighted average 160/3, but the code produces its two-decimal
rounding 53.33, which differs. -/
theorem portfolio_rounding_cex :
    portfolio_risk scoreAB70 [("A", 1), ("B", 2)] = some (5333/100) ∧
      (5333/100 : ℚ) ≠ (20 * 1 + 70 * 2) / (1 + 2) := by
  constructor
  · unfold portfolio_risk
    rw [if_neg (by simp [risks, scoreAB70])]
    simp only [risks, totalAmount, List.filterMap_cons, List.filterMap_nil,
      List.map_cons, List.map_nil, List.sum_cons, List.sum_nil,
      show scoreAB70 "A" = some 20 from rfl,
      show scoreAB70 "B" = some 70 from rfl, Option.map_some']
    norm_num [round2, round_eq, Int.floor_eq_iff]
  · norm_num

/-- C7 (amended): an input row joins the portfolio iff its name is non-empty
and its amount string, with the first dot removed, is a non-empty digit
string — a NON-NEGATIVE decimal; every included amount is ≥ 0, but an
amount of zero (e.g. the string "0") passes the filter, so inclusion does
not require positivity. -/
theorem entry_inclusion_characterization (name amount : List Char) :
    ((parsedEntry name amount).isSome ↔
      name ≠ [] ∧ isDigitStr (removeFirstDot amount) = true) ∧
    (∀ e, parsedEntry name amount = some e → 0 ≤ e.2) := by
  constructor
  · unfold parsedEntry
    split_ifs with h
    · simpa using h
    · simpa using h
  · intro e he
    unfold parsedEntry at he
    split_ifs at he with h
    cases he
    show (0:ℚ) ≤ parseDec amount
    unfold parseDec
    positivity

/-- Witness for C7: the row with name "A" and amount string "0" is included,
and its parsed amount 0 is non-negative. -/
theorem entry_inclusion_witness :
    parsedEntry ['A'] ['0'] = some (['A'], 0) ∧ 0 ≤ ((['A'], (0:ℚ))).2 := by
  have hpe : parsedEntry ['A'] ['0'] = some (['A'], 0) := by
    have h1 : digitsToNat (List.filter (fun c => c ≠ '.') ['0']) = 0 := by
      decide
    have h2 : fracLen ['0'] = 0 := by decide
    have hpd : parseDec ['0'] = 0 := by
      unfold parseDec
      rw [h1, h2]
      norm_num
    simp [parsedEntry, removeFirstDot, isDigitStr, hpd]
  exact ⟨hpe, (entry_inclusion_characterization ['A'] ['0']).2 (['A'], 0) hpe⟩

/-- Counterexample for C7 as stated: the entry with amount string "0" passes
the inclusion filter and joins the portfolio with amount 0, which is not
positive. -/
theorem zero_amount_included_cex :
    parsedEntry ['A'] ['0'] = some (['A'], 0) ∧ ¬((0:ℚ) < 0) := by
  constructor
  · have h1 : digitsToNat (List.filter (fun c => c ≠ '.') ['0']) = 0 := by
      decide
    have h2 : fracLen ['0'] = 0 := by decide
    have hpd : parseDec ['0'] = 0 := by
      unfold parseDec
      rw [h1, h2]
      norm_num
    simp [parsedEntry, removeFirstDot, isDigitStr, hpd]
  · norm_num

end RiskApp
